import Mathlib

/-!
Verification of the Hugging Face → Discord webhook relay (`src/index.ts`).

The TypeScript source is shallowly embedded below.  Strings are modelled as
`List Char` (JavaScript strings are UTF-16 code-unit sequences; every string
appearing in the verified statements is ASCII, where the two models agree
code-unit for code-unit).  JavaScript numbers are modelled as `ℚ` with exact
arithmetic; every numeric value appearing in the verified statements is
exactly representable as an IEEE double and the divisions involved are exact,
so the model agrees with the double-precision source on those statements.
Each regular-expression replacement of `cleanMarkdown` is embedded as an
explicit left-to-right scanning replacement whose per-position matcher
reproduces the JavaScript regex-engine semantics (greedy/lazy quantifiers,
ordered alternation with backtracking, multiline anchors) for that particular
pattern.  The two network fetches and the webhook post of `sendToDiscord` are
modelled by passing the fetched data in as arguments and recording the
side effects in an emitted effect list.
-/

/-! ### Character classes used by the regexes -/

/-- The JavaScript `\s` class (also the character set removed by
`String.prototype.trim`): space, tab, line terminators, vertical tab, form
feed, NBSP, and the Unicode space separators, plus U+FEFF. -/
def jsWS (c : Char) : Bool :=
  let n := c.toNat
  n == 32 || n == 9 || n == 10 || n == 11 || n == 12 || n == 13 ||
  n == 0xA0 || n == 0x1680 || (decide (0x2000 ≤ n) && decide (n ≤ 0x200A)) ||
  n == 0x2028 || n == 0x2029 || n == 0x202F || n == 0x205F || n == 0x3000 || n == 0xFEFF

/-- JavaScript line terminators: the characters `.` does not match and the
positions where the multiline anchors `^`/`$` match. -/
def isLineTermB (c : Char) : Bool :=
  let n := c.toNat
  n == 10 || n == 13 || n == 0x2028 || n == 0x2029

/-- Length of the maximal `\s*` run at the front of `s`. -/
def wsRunL (s : List Char) : Nat := (s.takeWhile jsWS).length

/-! ### RelevanceFilter (`DENYLIST`, `sendToDiscord` lines 148–152) -/

/-- The `DENYLIST` constant of `src/index.ts`. -/
def DENYLIST : List (List Char) :=
  ["gguf".data, "gptq".data, "awq".data, "exl3".data, "exl2".data, "fp8".data,
   "mlx".data, "mxfp4".data, "nvfp4".data, "bnb-4bit".data, "bnb-8bit".data]

/-- `hay.includes(sub)` — substring containment, as in
`String.prototype.includes`. -/
def includesL (hay sub : List Char) : Bool := decide (sub <:+: hay)

/-- `repo.name.toLowerCase()` followed by
`DENYLIST.some(keyword => name.includes(keyword))`.  `Char.toLower` lower-cases
exactly the ASCII range, agreeing with `toLowerCase` there; the denylist is
ASCII. -/
def denylisted (name : List Char) : Bool :=
  DENYLIST.any (fun kw => includesL (name.map Char.toLower) kw)

/-- The relevance predicate of the spec: `true` iff `sendToDiscord` does not
return early at the denylist check. -/
def isRelevant (id : List Char) : Bool := !(denylisted id)

/-! ### NumberAbbreviator (`abbreviateNumber`, lines 79–95) -/

/-- `Math.floor` (floors toward negative infinity). -/
def jsFloor (q : ℚ) : Int := ⌊q⌋

/-- `Math.round` (half away from zero toward positive infinity):
`Math.round(x) = ⌊x + 1/2⌋` in exact arithmetic. -/
def jsRound (q : ℚ) : Int := ⌊q + 1/2⌋

/-- Truncation toward zero, as the spec words "floor truncates toward zero"
describe (this is the spec-side definition used to compare against the
source's `Math.floor`). -/
def truncTowardZero (q : ℚ) : Int := if q < 0 then ⌈q⌉ else ⌊q⌋

/-- The `while (n >= 1000 && unitIndex < units.length - 1)` loop.  The index
starts at `-1`, strictly increases each iteration, and the guard requires it
to stay below `3`, so the loop runs at most `4` iterations; fuel `4` makes the
embedding total and exact. -/
def abbrevLoop : Nat → ℚ → Int → ℚ × Int
  | 0, n, i => (n, i)
  | fuel+1, n, i => if 1000 ≤ n ∧ i < 3 then abbrevLoop fuel (n / 1000) (i + 1) else (n, i)

/-- `abbreviateNumber(num, round = 'floor')`. -/
def abbreviateNumber (num : ℚ) (round : String := "floor") : String :=
  let p := abbrevLoop 4 num (-1)
  let value : Int := if round = "round" then jsRound p.1 else jsFloor p.1
  if 0 ≤ p.2 then toString value ++ ["K", "M", "B", "T"].getD p.2.toNat "" else toString value

/-! ### Generic machinery for the `cleanMarkdown` regex replacements

`gReplace m s` performs `s.replace(re, …)` with the `g` (and where relevant
`m`) flags for a regex embodied by the matcher `m`: positions are scanned left
to right; `m lineStart suffix` returns `some (k, repl)` when the regex matches
the front of `suffix` consuming `k + 1` characters (every regex below matches
at least one character), to be replaced by `repl`; scanning resumes after the
match, exactly as `lastIndex` advances in JavaScript.  `lineStart` tells an
anchored matcher whether the position is the string start or just after a line
terminator (the `^`/`m` semantics). -/

/-- Index of the first suffix position (0-based) satisfying `p`, scanning left
to right — the lazy-quantifier search. -/
def firstIdx (p : List Char → Bool) : List Char → Option Nat
  | [] => if p [] then some 0 else none
  | c :: cs => if p (c :: cs) then some 0 else (firstIdx p cs).map (· + 1)

/-- First alternative that yields a result — ordered regex alternation. -/
def firstSome {α β : Type} (f : α → Option β) : List α → Option β
  | [] => none
  | a :: as =>
    match f a with
    | some b => some b
    | none => firstSome f as

/-- Try candidates `c-1, c-2, …, 0` in that order — greedy backtracking from
the longest candidate. -/
def descendTry (f : Nat → Option Nat) : Nat → Option Nat
  | 0 => none
  | c+1 =>
    match f c with
    | some r => some r
    | none => descendTry f c

/-- Fuel-indexed scanner; `fuel = s.length` always suffices because every step
consumes at least one character. -/
def gReplaceAux (m : Bool → List Char → Option (Nat × List Char)) :
    Nat → Bool → List Char → List Char
  | 0, _, s => s
  | _+1, _, [] => []
  | fuel+1, ls, c :: cs =>
    match m ls (c :: cs) with
    | some (k, repl) =>
      repl ++ gReplaceAux m fuel
        (match (c :: cs).get? k with
         | some lastc => isLineTermB lastc
         | none => false)
        (cs.drop k)
    | none => c :: gReplaceAux m fuel (isLineTermB c) cs

/-- Global regex replacement (see `gReplaceAux`). -/
def gReplace (m : Bool → List Char → Option (Nat × List Char)) (s : List Char) : List Char :=
  gReplaceAux m s.length true s

/-! ### Step 1: `s.replace(/^﻿?---\s*[\s\S]*?\n---\s*\n?/, "")`

Single anchored replacement.  After `---`, the greedy `\s*` consumes the
maximal whitespace run `W`; the lazy `[\s\S]*?` then selects the first
occurrence of `\n---` at or after that point; if none exists, backtracking the
greedy `\s*` by one can succeed only when the last character of the run is the
`\n` of a `\n---` occurrence sitting at the run boundary (any earlier `\n---`
would place a `-` inside the whitespace run, impossible).  After the closing
`---`, the greedy `\s*` consumes all following whitespace and `\n?` matches
empty. -/
def stripFrontmatter (s : List Char) : List Char :=
  let bom : Nat := if s.head? = some '﻿' then 1 else 0
  let t := s.drop bom
  if "---".data.isPrefixOf t then
    let u := t.drop 3
    let W := wsRunL u
    match firstIdx (fun v => "\n---".data.isPrefixOf v) (u.drop W) with
    | some r =>
      let T := wsRunL (u.drop (W + r + 4))
      s.drop (bom + 3 + W + r + 4 + T)
    | none =>
      if 1 ≤ W ∧ (u.drop (W - 1)).head? = some '\n' ∧ "---".data.isPrefixOf (u.drop W) then
        let T := wsRunL (u.drop (W + 3))
        s.drop (bom + 3 + (W - 1) + 4 + T)
      else s
  else s

/-! ### Step 2: HTML block removal (case-insensitive, with back-reference) -/

/-- The ordered alternation of the block-removal regex. -/
def BLOCKTAGS : List (List Char) :=
  ["details".data, "summary".data, "div".data, "table".data, "thead".data,
   "tbody".data, "tr".data, "td".data, "th".data, "style".data, "script".data,
   "footer".data, "header".data, "nav".data, "section".data, "aside".data,
   "figure".data, "figcaption".data]

/-- Case-insensitive prefix test (`/i` flag; ASCII tags). -/
def ciPrefix (pat s : List Char) : Bool := pat.isPrefixOf (s.map Char.toLower)

/-- Length of a match of `<\/\s*tag\s*>` at the front of `v`, if any. -/
def closeLen (tag : List Char) (v : List Char) : Option Nat :=
  if v.head? = some '<' ∧ (v.drop 1).head? = some '/' then
    let v2 := v.drop 2
    let w := wsRunL v2
    let v3 := v2.drop w
    if ciPrefix tag v3 then
      let v4 := v3.drop tag.length
      let w2 := wsRunL v4
      if (v4.drop w2).head? = some '>' then some (2 + w + tag.length + w2 + 1) else none
    else none
  else none

/-- Matcher for
`/<\s*(details|…|figcaption)[\s\S]*?<\/\s*\1\s*>/gi`:
ordered alternation over the tag names (so a failing alternative such as
`thead` backtracks to a later one such as `th`, exactly as in the engine),
then the lazy `[\s\S]*?` selects the first matching close for the chosen
name. -/
def blockMatcher (_ : Bool) (s : List Char) : Option (Nat × List Char) :=
  if s.head? = some '<' then
    let rest := s.drop 1
    let w := wsRunL rest
    let r1 := rest.drop w
    firstSome (fun tag =>
      if ciPrefix tag r1 then
        let content := r1.drop tag.length
        match firstIdx (fun v => (closeLen tag v).isSome) content with
        | some r =>
          match closeLen tag (content.drop r) with
          | some L => some (w + tag.length + r + L, ([] : List Char))
          | none => none
        | none => none
      else none) BLOCKTAGS
  else none

/-! ### Step 3: `/<\s*(img|br|hr|input|meta|link)[^>]*>/gi` -/

def VOIDTAGS : List (List Char) :=
  ["img".data, "br".data, "hr".data, "input".data, "meta".data, "link".data]

def voidMatcher (_ : Bool) (s : List Char) : Option (Nat × List Char) :=
  if s.head? = some '<' then
    let rest := s.drop 1
    let w := wsRunL rest
    let r1 := rest.drop w
    firstSome (fun tag =>
      if ciPrefix tag r1 then
        let r2 := r1.drop tag.length
        let R := (r2.takeWhile (fun c => c ≠ '>')).length
        if (r2.drop R).head? = some '>' then some (w + tag.length + R + 1, ([] : List Char))
        else none
      else none) VOIDTAGS
  else none

/-! ### Step 4: `/<\/?[^>]+>/g` -/

/-- The optional `\/?` is greedy: with a `/` present the engine first tries to
consume it; if `[^>]+>` then fails it backtracks and lets `[^>]+` absorb the
`/` (so `</>` matches). -/
def tagMatcher (_ : Bool) (s : List Char) : Option (Nat × List Char) :=
  if s.head? = some '<' then
    let rest := s.drop 1
    let withSlash : Option Nat :=
      if rest.head? = some '/' then
        let r2 := rest.drop 1
        let R := (r2.takeWhile (fun c => c ≠ '>')).length
        if 1 ≤ R ∧ (r2.drop R).head? = some '>' then some (R + 2) else none
      else none
    match withSlash with
    | some k => some (k, ([] : List Char))
    | none =>
      let R := (rest.takeWhile (fun c => c ≠ '>')).length
      if 1 ≤ R ∧ (rest.drop R).head? = some '>' then some (R + 1, ([] : List Char)) else none
  else none

/-! ### Step 5: ATX headings and Setext underlines -/

/-- Matcher for `/^\s{0,3}#{1,6}\s+.*$/gm`.  `\s{0,3}` can only stop at the end
of the whitespace run (a `#` is not whitespace), so the run must have length
at most 3; similarly `#{1,6}` must exhaust the `#` run (at most 6); `\s+` is
greedy (and may cross line breaks, as `\s` matches `\n`); `.*$` then takes the
rest of the current line. -/
def atxMatcher (ls : Bool) (s : List Char) : Option (Nat × List Char) :=
  if ls then
    let W := wsRunL s
    if W ≤ 3 then
      let r1 := s.drop W
      if r1.head? = some '#' then
        let H := (r1.takeWhile (fun c => c = '#')).length
        if H ≤ 6 then
          let r2 := r1.drop H
          let V := wsRunL r2
          if 1 ≤ V then
            let r3 := r2.drop V
            let L := (r3.takeWhile (fun c => !isLineTermB c)).length
            some (W + H + V + L - 1, ([] : List Char))
          else none
        else none
      else none
    else none
  else none

/-- `-` or `=`, the class `[-=]`. -/
def dashEq (c : Char) : Bool := c = '-' || c = '='

/-- The trailing `\s*$` (multiline): the greedy `\s*` consumes the maximal
whitespace run when the string ends there, otherwise backtracks to stop just
before the last line terminator inside the run; fails if there is none. -/
def dollarTrail (v : List Char) : Option Nat :=
  let T := wsRunL v
  if v.drop T = [] then some T
  else
    match (v.take T).reverse.findIdx? isLineTermB with
    | some j => some (T - 1 - j)
    | none => none

/-- Matcher for `/^\s*[-=]{3,}\s*$/gm`. -/
def setextMatcher (ls : Bool) (s : List Char) : Option (Nat × List Char) :=
  if ls then
    let W := wsRunL s
    let r1 := s.drop W
    let D := (r1.takeWhile dashEq).length
    if 3 ≤ D then
      match dollarTrail (r1.drop D) with
      | some T => some (W + D + T - 1, ([] : List Char))
      | none => none
    else none
  else none

/-! ### Step 6: `/!\[[^\]]*\]\([^)]*\)/g` -/

def imageMatcher (_ : Bool) (s : List Char) : Option (Nat × List Char) :=
  if s.head? = some '!' ∧ (s.drop 1).head? = some '[' then
    let r := s.drop 2
    let A := (r.takeWhile (fun c => c ≠ ']')).length
    let r1 := r.drop A
    if r1.head? = some ']' ∧ (r1.drop 1).head? = some '(' then
      let r2 := r.drop (A + 2)
      let B := (r2.takeWhile (fun c => c ≠ ')')).length
      if (r2.drop B).head? = some ')' then some (A + B + 4, ([] : List Char)) else none
    else none
  else none

/-! ### Step 7: `/^\s*\|.*\|\s*$/gm` (markdown table rows) -/

/-- The leading `^\s*` must stop exactly at the end of the whitespace run (a
`|` is not whitespace); `.*` is greedy over the current line and backtracks to
the last `|` whose trailer satisfies `\s*$`. -/
def tableMatcher (ls : Bool) (s : List Char) : Option (Nat × List Char) :=
  if ls then
    let W := wsRunL s
    let r1 := s.drop W
    if r1.head? = some '|' then
      let line := r1.drop 1
      let C := (line.takeWhile (fun c => !isLineTermB c)).length
      match descendTry (fun c =>
        if line.get? c = some '|' then
          match dollarTrail (line.drop (c + 1)) with
          | some T => some (W + c + T + 2)
          | none => none
        else none) C with
      | some total => some (total - 1, ([] : List Char))
      | none => none
    else none
  else none

/-! ### Step 8: HTML entity decoding -/

/-- A fixed-string replacement such as `/&nbsp;/g → " "`. -/
def litMatcher (pat repl : List Char) (_ : Bool) (s : List Char) : Option (Nat × List Char) :=
  if pat.isPrefixOf s then some (pat.length - 1, repl) else none

def isHexDigitB (c : Char) : Bool :=
  (decide ('0' ≤ c) && decide (c ≤ '9')) || (decide ('a' ≤ c) && decide (c ≤ 'f')) ||
  (decide ('A' ≤ c) && decide (c ≤ 'F'))

def hexDigitVal (c : Char) : Nat :=
  if c ≤ '9' then c.toNat - 48 else if c ≤ 'F' then c.toNat - 55 else c.toNat - 87

def hexVal (l : List Char) : Nat := l.foldl (fun acc c => 16 * acc + hexDigitVal c) 0

def decVal (l : List Char) : Nat := l.foldl (fun acc c => 10 * acc + (c.toNat - 48)) 0

/-- Matcher for `/&#x([\da-fA-F]+);/g` with replacement
`String.fromCodePoint(parseInt(h, 16))`.  `fromCodePoint` of a value above
`0x10FFFF` throws a `RangeError` in JavaScript and a lone surrogate yields an
unpaired code unit; both lie outside any verified statement and are mapped
through `Char.ofNat`'s default here. -/
def hexEntMatcher (_ : Bool) (s : List Char) : Option (Nat × List Char) :=
  if s.head? = some '&' ∧ (s.drop 1).head? = some '#' ∧ (s.drop 2).head? = some 'x' then
    let r := s.drop 3
    let H := (r.takeWhile isHexDigitB).length
    if 1 ≤ H ∧ (r.drop H).head? = some ';' then
      some (H + 3, [Char.ofNat (hexVal (r.take H))])
    else none
  else none

/-- Matcher for `/&#(\d+);/g` with replacement
`String.fromCodePoint(parseInt(n, 10))` (same caveat as `hexEntMatcher`). -/
def decEntMatcher (_ : Bool) (s : List Char) : Option (Nat × List Char) :=
  if s.head? = some '&' ∧ (s.drop 1).head? = some '#' then
    let r := s.drop 2
    let D := (r.takeWhile Char.isDigit).length
    if 1 ≤ D ∧ (r.drop D).head? = some ';' then
      some (D + 2, [Char.ofNat (decVal (r.take D))])
    else none
  else none

/-! ### Step 9: whitespace normalisation and trim -/

/-- Matcher for `/[ \t]+\n/g → "\n"`. -/
def ws1Matcher (_ : Bool) (s : List Char) : Option (Nat × List Char) :=
  let R := (s.takeWhile (fun c => c = ' ' || c = '\t')).length
  if 1 ≤ R ∧ (s.drop R).head? = some '\n' then some (R, ['\n']) else none

/-- Matcher for `/\n{3,}/g → "\n\n"`. -/
def ws2Matcher (_ : Bool) (s : List Char) : Option (Nat × List Char) :=
  let R := (s.takeWhile (fun c => c = '\n')).length
  if 3 ≤ R then some (R - 1, ['\n', '\n']) else none

/-- `String.prototype.trim`. -/
def trimList (s : List Char) : List Char :=
  ((s.dropWhile jsWS).reverse.dropWhile jsWS).reverse

/-! ### `cleanMarkdown` (lines 97–142) -/

/-- The cleaning pipeline of `cleanMarkdown` up to (but excluding) the final
`s.slice(0, 1021) + "..."`; `none` models a `null` argument (`md || ""`). -/
def cleanCore (md : Option (List Char)) : List Char :=
  let s0 := md.getD []
  let s1 := stripFrontmatter s0
  let s2 := gReplace blockMatcher s1
  let s3 := gReplace voidMatcher s2
  let s4 := gReplace tagMatcher s3
  let s5 := gReplace atxMatcher s4
  let s6 := gReplace setextMatcher s5
  let s7 := gReplace imageMatcher s6
  let s8 := gReplace tableMatcher s7
  let s9 := gReplace (litMatcher "&nbsp;".data " ".data) s8
  let s10 := gReplace (litMatcher "&amp;".data "&".data) s9
  let s11 := gReplace (litMatcher "&lt;".data "<".data) s10
  let s12 := gReplace (litMatcher "&gt;".data ">".data) s11
  let s13 := gReplace hexEntMatcher s12
  let s14 := gReplace decEntMatcher s13
  let s15 := gReplace ws1Matcher s14
  let s16 := gReplace ws2Matcher s15
  trimList s16

/-- `cleanMarkdown(md)`: the pipeline followed by
`s.slice(0, 1021) + "..."`. -/
def cleanMarkdown (md : Option (List Char)) : List Char :=
  (cleanCore md).take 1021 ++ "...".data

/-! ### Spec-side line predicates (used to state the corrected C5) -/

/-- `s` contains no line terminator — it is a single line. -/
def noLT (s : List Char) : Bool := s.all (fun c => !isLineTermB c)

/-- A single line of the shape the heading regex actually removes: at most 3
leading whitespace characters, one to six `#`, then at least one whitespace
character. -/
def atxLine (s : List Char) : Bool :=
  let W := wsRunL s
  let r1 := s.drop W
  let H := (r1.takeWhile (fun c => c = '#')).length
  decide (W ≤ 3) && decide (1 ≤ H) && decide (H ≤ 6) && decide (1 ≤ wsRunL (r1.drop H))

/-- A single line consisting solely of 3 or more `-`/`=` characters with
optional surrounding whitespace. -/
def setextLine (s : List Char) : Bool :=
  let W := wsRunL s
  let r1 := s.drop W
  let D := (r1.takeWhile dashEq).length
  decide (3 ≤ D) && (r1.drop D).all jsWS

/-! ### The webhook payload and the Discord notification document -/

structure HFEvent where
  action : String
  scope : String
  deriving Repr, DecidableEq

structure RepoUrls where
  web : String
  api : String
  deriving Repr, DecidableEq

structure RepoOwner where
  id : String
  deriving Repr, DecidableEq

/-- `payload.repo`.  The source field `private` is a Lean keyword and is
embedded as `priv`. -/
structure HFRepo where
  type : String
  name : String
  id : String
  priv : Bool
  url : RepoUrls
  owner : RepoOwner
  tags : Option (List String)
  deriving Repr, DecidableEq

structure WebhookInfo where
  id : String
  version : Nat
  deriving Repr, DecidableEq

structure HFWebhookPayload where
  event : HFEvent
  repo : HFRepo
  webhook : WebhookInfo
  deriving Repr, DecidableEq

/-- Optional `safetensors` document of the metadata JSON; `total` present iff
the `"total" in model_info.safetensors` test succeeds. -/
structure SafetensorsInfo where
  total : Option ℚ
  deriving Repr, DecidableEq

/-- Optional `cardData` document; `license` present iff
`"license" in model_info.cardData` succeeds. -/
structure CardData where
  license : Option String
  deriving Repr, DecidableEq

/-- The metadata JSON fetched from `repo.url.api` (`model_info`), restricted
to the paths the program reads. -/
structure ModelInfo where
  safetensors : Option SafetensorsInfo
  cardData : Option CardData
  deriving Repr, DecidableEq

structure EmbedField where
  name : String
  value : String
  inline : Bool
  deriving Repr, DecidableEq

structure EmbedFooter where
  text : String
  icon_url : String
  deriving Repr, DecidableEq

/-- The value of `colors[repo.type] || 0x808080`.  `colors` is a plain object
literal, so JavaScript bracket access falls through to the prototype chain:
an own key yields its number, while a key naming an `Object.prototype` member
(`constructor`, `toString`, `__proto__`, …) yields that inherited value — a
function, or for `__proto__` the prototype object itself — which is truthy
and therefore survives the `||` fallback.  `protoMember t` records which
inherited member became the color. -/
inductive ColorValue where
  | num : Nat → ColorValue
  | protoMember : String → ColorValue
  deriving Repr, DecidableEq

structure Embed where
  title : String
  description : List Char
  color : ColorValue
  fields : List EmbedField
  url : String
  timestamp : String
  footer : EmbedFooter
  deriving Repr, DecidableEq

structure DiscordPayload where
  embeds : List Embed
  deriving Repr, DecidableEq

/-- Network actions of `sendToDiscord`, in program order. -/
inductive Effect where
  | fetchApi : String → Effect
  | fetchReadme : String → Effect
  | postWebhook : String → DiscordPayload → Effect
  deriving Repr, DecidableEq

/-- The `colors` record literal. -/
def colorTable : List (String × Nat) :=
  [("model", 0xFF9D00), ("dataset", 0x00D1FF), ("space", 0xFF006E)]

/-- The property keys `colors` inherits from `Object.prototype` (the standard
members of ECMA-262's `Object.prototype`); accessing any of them on the object
literal yields a truthy value (a function, or for `__proto__` the prototype
object itself). -/
def OBJECT_PROTOTYPE_KEYS : List String :=
  ["constructor", "hasOwnProperty", "isPrototypeOf", "propertyIsEnumerable",
   "toLocaleString", "toString", "valueOf", "__defineGetter__", "__defineSetter__",
   "__lookupGetter__", "__lookupSetter__", "__proto__"]

/-- `colors[repo.type] || 0x808080`: own-key lookup first (a `0` entry would be
falsy and fall back to gray); otherwise bracket access consults the prototype
chain, so a key in `OBJECT_PROTOTYPE_KEYS` yields the inherited truthy member
(kept by `||`); only a genuinely absent property gives `undefined` and hence
the gray default. -/
def colorFor (t : String) : ColorValue :=
  match colorTable.lookup t with
  | some c => if c = 0 then ColorValue.num 0x808080 else ColorValue.num c
  | none =>
    if t ∈ OBJECT_PROTOTYPE_KEYS then ColorValue.protoMember t
    else ColorValue.num 0x808080

/-- `repo.type.charAt(0).toUpperCase() + repo.type.slice(1)` (ASCII
upper-casing, as in the source's usage). -/
def capFirst (s : String) : String :=
  match s.data with
  | [] => ""
  | c :: cs => String.mk (Char.toUpper c :: cs)

/-- `Array.prototype.join(', ')`. -/
def joinComma : List String → String
  | [] => ""
  | [x] => x
  | x :: xs => x ++ ", " ++ joinComma xs

/-- The readme URL `https://huggingface.co/${repo.name}/raw/main/README.md`. -/
def readmeUrl (name : String) : String :=
  "https://huggingface.co/" ++ name ++ "/raw/main/README.md"

/-- `sendToDiscord(payload, webhookUrl)` (lines 145–215), with the awaited
fetch results supplied as arguments: `model_info` is the parsed metadata JSON
(its fetch succeeding, else the function throws before composing anything),
`readmeStatus`/`readmeBody` the documentation response, and `now` the
timestamp string.  Returns the network effects issued, in order, and the
composed Discord document (`none` when the denylist short-circuits). -/
def sendToDiscord (webhookUrl : String) (payload : HFWebhookPayload) (model_info : ModelInfo)
    (readmeStatus : Nat) (readmeBody : List Char) (now : String) :
    List Effect × Option DiscordPayload :=
  let repo := payload.repo
  if denylisted repo.name.data then ([], none)
  else
    let color := colorFor repo.type
    let _tags : String :=
      match repo.tags with
      | some ts => match joinComma (ts.take 5) with
        | "" => "None"
        | j => j
      | none => "None"
    let readme : Option (List Char) := if readmeStatus = 200 then some readmeBody else none
    let baseFields : List EmbedField := [{ name := "Type", value := capFirst repo.type, inline := true }]
    let fields1 :=
      match model_info.safetensors with
      | some st =>
        match st.total with
        | some t => baseFields ++ [{ name := "Parameters", value := abbreviateNumber t, inline := true }]
        | none => baseFields
      | none => baseFields
    let fields2 :=
      match model_info.cardData with
      | some cd =>
        match cd.license with
        | some l => fields1 ++ [{ name := "License", value := l, inline := true }]
        | none => fields1
      | none => fields1
    let embed : Embed :=
      { title := repo.name
        description := cleanMarkdown readme
        color := color
        fields := fields2
        url := repo.url.web
        timestamp := now
        footer := { text := "Hugging Face"
                    icon_url := "https://huggingface.co/front/assets/huggingface_logo-noborder.svg" } }
    let dp : DiscordPayload := { embeds := [embed] }
    ([Effect.fetchApi repo.url.api, Effect.fetchReadme (readmeUrl repo.name),
      Effect.postWebhook webhookUrl dp], some dp)

/-- `payload` with only the repository visibility flag replaced. -/
def setPriv (p : HFWebhookPayload) (b : Bool) : HFWebhookPayload :=
  { p with repo := { p.repo with priv := b } }

/-- A concrete accepted payload used in closed instances of the theorems. -/
def samplePayload : HFWebhookPayload :=
  { event := { action := "create", scope := "repo" }
    repo := { type := "model"
              name := "acme/small-model"
              id := "1234"
              priv := false
              url := { web := "https://huggingface.co/acme/small-model"
                       api := "https://huggingface.co/api/models/acme/small-model" }
              owner := { id := "acme" }
              tags := some ["text-generation"] }
    webhook := { id := "w1", version := 3 } }

/-- A concrete denylisted payload (identifier `acme/model-gguf`). -/
def ggufPayload : HFWebhookPayload :=
  { samplePayload with repo := { samplePayload.repo with name := "acme/model-gguf" } }

/-- A concrete metadata document exposing both optional paths. -/
def sampleInfo : ModelInfo :=
  { safetensors := some { total := some 7000000000 }, cardData := some { license := some "mit" } }

/-- A document that is one frontmatter block of `n` filler characters; the
cleaning pipeline removes it entirely. -/
def fmDoc (n : Nat) : List Char :=
  "---\n".data ++ (List.replicate n 'x' ++ "\n---\n".data)

/-- The 1022-character document used to refute the claimed truncation bound. -/
def fmCounterexample : List Char := fmDoc 1013

/-! ## General lemmas about the embedding -/

theorem abbrevLoop_succ (f : Nat) (n : ℚ) (i : Int) :
    abbrevLoop (f+1) n i = if 1000 ≤ n ∧ i < 3 then abbrevLoop f (n / 1000) (i + 1) else (n, i) :=
  rfl

theorem length_takeWhile_le (p : Char → Bool) : ∀ l : List Char, (l.takeWhile p).length ≤ l.length
  | [] => Nat.le_refl 0
  | c :: cs => by
    rw [List.takeWhile_cons]
    by_cases h : p c
    · simpa [h] using Nat.succ_le_succ (length_takeWhile_le p cs)
    · simp [h]

theorem head_of_takeWhile_pos {p : Char → Bool} {l : List Char}
    (h : 0 < (l.takeWhile p).length) : ∃ c l2, l = c :: l2 ∧ p c = true := by
  cases l with
  | nil => simp at h
  | cons c l2 =>
    rw [List.takeWhile_cons] at h
    by_cases hp : p c
    · exact ⟨c, l2, rfl, hp⟩
    · simp [hp] at h

theorem takeWhile_rep_false {p : Char → Bool} {c : Char} (h : p c = false) (k : Nat) :
    (List.replicate k c).takeWhile p = [] := by
  cases k with
  | zero => rfl
  | succ n => rw [List.replicate_succ, List.takeWhile_cons, h]; rfl

theorem dropWhile_rep_false {p : Char → Bool} {c : Char} (h : p c = false) (k : Nat) :
    (List.replicate k c).dropWhile p = List.replicate k c := by
  cases k with
  | zero => rfl
  | succ n => rw [List.replicate_succ, List.dropWhile_cons, h]; rfl

theorem gReplaceAux_nil (m : Bool → List Char → Option (Nat × List Char)) (fuel : Nat) (ls : Bool) :
    gReplaceAux m fuel ls [] = [] := by
  cases fuel <;> rfl

theorem gReplaceAux_id {m : Bool → List Char → Option (Nat × List Char)} {c : Char}
    (h : ∀ ls k, m ls (List.replicate k c) = none) :
    ∀ (fuel n : Nat) (ls : Bool), gReplaceAux m fuel ls (List.replicate n c) = List.replicate n c := by
  intro fuel
  induction fuel with
  | zero => intro n ls; rfl
  | succ f ih =>
    intro n ls
    cases n with
    | zero => rfl
    | succ n2 =>
      rw [List.replicate_succ]
      have hm : m ls (c :: List.replicate n2 c) = none := by
        rw [← List.replicate_succ]; exact h ls (n2 + 1)
      simp only [gReplaceAux, hm]
      rw [ih n2 (isLineTermB c)]

theorem gReplace_id {m : Bool → List Char → Option (Nat × List Char)} {c : Char}
    (h : ∀ ls k, m ls (List.replicate k c) = none) (n : Nat) :
    gReplace m (List.replicate n c) = List.replicate n c :=
  gReplaceAux_id h _ n true

theorem gReplace_full {m : Bool → List Char → Option (Nat × List Char)} {s : List Char}
    (h : m true s = some (s.length - 1, [])) (hne : s ≠ []) : gReplace m s = [] := by
  cases s with
  | nil => exact absurd rfl hne
  | cons c cs =>
    have h2 : m true (c :: cs) = some (cs.length, []) := by simpa using h
    show gReplaceAux m (c :: cs).length true (c :: cs) = []
    rw [List.length_cons]
    simp only [gReplaceAux, h2]
    rw [List.drop_length]
    simp [gReplaceAux_nil]

/-! ## C1: the relevance filter -/

/-- C1: for every denylist keyword `kw`, any identifier containing `kw` as a
substring in any letter case is rejected; an identifier whose lower-casing
contains no denylist keyword is accepted; the empty identifier is accepted. -/
theorem c1_relevance_filter :
    (∀ id v kw : List Char, kw ∈ DENYLIST → v <:+: id → v.map Char.toLower = kw →
      isRelevant id = false)
    ∧ (∀ id : List Char, (∀ kw ∈ DENYLIST, ¬ kw <:+: id.map Char.toLower) → isRelevant id = true)
    ∧ isRelevant [] = true := by
  refine ⟨?_, ?_, by decide⟩
  · intro id v kw hkw hinf hlow
    have hinf2 : kw <:+: id.map Char.toLower := by
      obtain ⟨u, w, rfl⟩ := hinf
      exact ⟨u.map Char.toLower, w.map Char.toLower, by simp [← hlow]⟩
    have hden : denylisted id = true :=
      List.any_eq_true.mpr ⟨kw, hkw, by simpa [includesL] using hinf2⟩
    simp [isRelevant, hden]
  · intro id h
    cases hd : denylisted id with
    | false => simp [isRelevant, hd]
    | true =>
      obtain ⟨kw, hkw, hinc⟩ := List.any_eq_true.mp hd
      exact absurd (by simpa [includesL] using hinc) (h kw hkw)

/-- Closed instance of `c1_relevance_filter`. -/
theorem c1_relevance_filter_instance :
    isRelevant "acme/GGUF-model".data = false ∧ isRelevant "acme/small-model".data = true :=
  ⟨c1_relevance_filter.1 "acme/GGUF-model".data "GGUF".data "gguf".data (by decide) (by decide)
      (by decide),
   c1_relevance_filter.2.1 "acme/small-model".data (by decide)⟩

/-! ## C2 and C3: the number abbreviator -/

/-- C2: the five specified values of `abbreviateNumber`, and every value at or
beyond one trillion keeps the `T` unit (no unit beyond `T` exists). -/
theorem c2_abbreviate_values :
    abbreviateNumber 999 = "999" ∧ abbreviateNumber 1000 = "1K"
    ∧ abbreviateNumber 7500000 "floor" = "7M" ∧ abbreviateNumber 7500000 "round" = "8M"
    ∧ abbreviateNumber 1000000000000 = "1T"
    ∧ ∀ (q : ℚ) (mode : String), 10^12 ≤ q →
        ∃ v : Int, abbreviateNumber q mode = toString v ++ "T" := by
  refine ⟨?_, ?_, ?_, ?_, ?_, ?_⟩
  · norm_num [abbreviateNumber, abbrevLoop, jsFloor]; decide
  · norm_num [abbreviateNumber, abbrevLoop, jsFloor]; decide
  · norm_num [abbreviateNumber, abbrevLoop, jsFloor]; decide
  · norm_num [abbreviateNumber, abbrevLoop, jsRound]; decide
  · norm_num [abbreviateNumber, abbrevLoop, jsFloor]; decide
  · intro q mode hq
    norm_num at hq
    have h0 : (0:ℚ) < 1000 := by norm_num
    have hq1 : (1000:ℚ) ≤ q := by linarith
    have hq2 : (1000:ℚ) ≤ q / 1000 := by
      rw [le_div_iff₀ h0]; linarith
    have hq3 : (1000:ℚ) ≤ q / 1000 / 1000 := by
      rw [le_div_iff₀ h0, le_div_iff₀ h0]; linarith
    have hq4 : (1000:ℚ) ≤ q / 1000 / 1000 / 1000 := by
      rw [le_div_iff₀ h0, le_div_iff₀ h0, le_div_iff₀ h0]; linarith
    have l1 : abbrevLoop 4 q (-1) = (q / 1000 / 1000 / 1000 / 1000, 3) := by
      rw [show (4:Nat) = 3+1 from rfl, abbrevLoop_succ, if_pos ⟨hq1, by decide⟩]
      rw [show (3:Nat) = 2+1 from rfl, abbrevLoop_succ, if_pos ⟨hq2, by decide⟩]
      rw [show (2:Nat) = 1+1 from rfl, abbrevLoop_succ, if_pos ⟨hq3, by decide⟩]
      rw [show (1:Nat) = 0+1 from rfl, abbrevLoop_succ, if_pos ⟨hq4, by decide⟩]
      rfl
    exact ⟨if mode = "round" then jsRound (q / 1000 / 1000 / 1000 / 1000)
           else jsFloor (q / 1000 / 1000 / 1000 / 1000), by simp [abbreviateNumber, l1]⟩

/-- Closed instance of `c2_abbreviate_values`. -/
theorem c2_abbreviate_values_instance :
    ∃ v : Int, abbreviateNumber (2 * 10^12) "floor" = toString v ++ "T" :=
  c2_abbreviate_values.2.2.2.2.2 (2 * 10^12) "floor" (by norm_num)

/-- C3 counterexample: in floor mode the displayed digit is `Math.floor`, which
floors toward negative infinity, not toward zero: at `-3/2` the program
displays `-2` while truncation toward zero gives `-1`. -/
theorem c3_floor_counterexample :
    ¬ (abbreviateNumber (-3/2 : ℚ) "floor" = toString (truncTowardZero (-3/2 : ℚ))) := by
  have h1 : abbreviateNumber (-3/2 : ℚ) "floor" = "-2" := by
    norm_num [abbreviateNumber, abbrevLoop, jsFloor]
    decide
  have h2 : truncTowardZero (-3/2 : ℚ) = -1 := by
    norm_num [truncTowardZero, Int.ceil_neg]
  rw [h1, h2]
  decide

/-- C3 (as amended): values below 1000 — in particular every negative value —
never receive a unit suffix and are displayed as the rounding of the input
itself; negative inputs go through the same comparison-driven reduction (which
performs zero steps) and floor mode displays a negative value for them; floor
mode truncates toward zero exactly on non-negative values, flooring toward
negative infinity in general. -/
theorem c3_abbreviate_signs :
    (∀ (q : ℚ) (mode : String), q < 1000 →
        abbreviateNumber q mode = toString (if mode = "round" then jsRound q else jsFloor q))
    ∧ (∀ q : ℚ, q < 0 → abbreviateNumber q "floor" = toString (jsFloor q) ∧ jsFloor q < 0)
    ∧ (∀ q : ℚ, 0 ≤ q → jsFloor q = truncTowardZero q) := by
  have key : ∀ (q : ℚ) (mode : String), q < 1000 →
      abbreviateNumber q mode = toString (if mode = "round" then jsRound q else jsFloor q) := by
    intro q mode h
    have l1 : abbrevLoop 4 q (-1) = (q, -1) := by
      rw [show (4:Nat) = 3+1 from rfl, abbrevLoop_succ, if_neg]
      rintro ⟨h1, _⟩
      exact absurd h1 (not_le.mpr h)
    simp [abbreviateNumber, l1]
  refine ⟨key, fun q hq => ⟨?_, ?_⟩, fun q hq => ?_⟩
  · have := key q "floor" (lt_trans hq (by norm_num))
    rwa [if_neg (by decide)] at this
  · exact Int.floor_lt.mpr (by exact_mod_cast hq)
  · rw [truncTowardZero, if_neg (not_lt.mpr hq)]; rfl

/-- Closed instance of `c3_abbreviate_signs`. -/
theorem c3_abbreviate_signs_instance :
    abbreviateNumber 12 "floor" = toString (if "floor" = "round" then jsRound 12 else jsFloor 12)
    ∧ (abbreviateNumber (-2) "floor" = toString (jsFloor (-2)) ∧ jsFloor (-2) < 0)
    ∧ jsFloor (5/2) = truncTowardZero (5/2) :=
  ⟨c3_abbreviate_signs.1 12 "floor" (by norm_num),
   c3_abbreviate_signs.2.1 (-2) (by norm_num),
   c3_abbreviate_signs.2.2 (5/2) (by norm_num)⟩

/-! ## C4: truncation behaviour of `cleanMarkdown` -/

theorem firstIdx_fm (n : Nat) :
    firstIdx (fun v => "\n---".data.isPrefixOf v)
      (List.replicate n 'x' ++ "\n---\n".data) = some n := by
  induction n with
  | zero => rfl
  | succ n2 ih =>
    rw [List.replicate_succ, List.cons_append]
    have hp : ("\n---".data.isPrefixOf
        ('x' :: (List.replicate n2 'x' ++ "\n---\n".data))) = false := by
      show (('\n' :: "---".data).isPrefixOf _) = false
      simp [List.isPrefixOf]
    simp only [firstIdx, hp, Bool.false_eq_true, if_false, ih]
    rfl

theorem stripFrontmatter_fmDoc (n : Nat) : stripFrontmatter (fmDoc (n+1)) = [] := by
  have hu : (fmDoc (n+1)).drop 3 = '\n' :: (List.replicate (n+1) 'x' ++ "\n---\n".data) := rfl
  have htw : (List.replicate (n+1) 'x' ++ "\n---\n".data).takeWhile jsWS = [] := by
    rw [List.replicate_succ, List.cons_append, List.takeWhile_cons]
    simp [show jsWS 'x' = false from by decide]
  have hW : wsRunL ((fmDoc (n+1)).drop 3) = 1 := by
    rw [hu, wsRunL, List.takeWhile_cons]
    simp [show jsWS '\n' = true from by decide, htw]
  have hfi : firstIdx (fun v => "\n---".data.isPrefixOf v) (((fmDoc (n+1)).drop 3).drop 1)
      = some (n+1) := by
    rw [hu, List.drop_succ_cons, List.drop_zero]
    exact firstIdx_fm (n+1)
  have hdropT : ((fmDoc (n+1)).drop 3).drop (1 + (n+1) + 4) = ['\n'] := by
    rw [hu, show (1 + (n+1) + 4 : Nat) = (n + 5) + 1 by omega, List.drop_succ_cons,
      show (n + 5 : Nat) = (List.replicate (n+1) 'x').length + 4 by simp]
    rw [List.drop_append]
    rfl
  have hT : wsRunL (((fmDoc (n+1)).drop 3).drop (1 + (n+1) + 4)) = 1 := by
    rw [hdropT]; rfl
  have hlen : (fmDoc (n+1)).length = n + 10 := by
    have h4 : ("---\n".data).length = 4 := rfl
    have h5 : ("\n---\n".data).length = 5 := rfl
    simp [fmDoc, h4, h5]
  have hbom : ((fmDoc (n+1)).head? = some '﻿') = False := by
    rw [show (fmDoc (n+1)).head? = some '-' from rfl]
    simp
  simp only [stripFrontmatter, hbom, if_false, List.drop_zero,
    show ("---".data.isPrefixOf (fmDoc (n+1))) = true from rfl, if_true, hW, hfi, hT]
  refine List.drop_eq_nil_of_le ?_
  rw [hlen]
  omega

theorem cleanCore_fm : cleanCore (some fmCounterexample) = [] := by
  have h1 : stripFrontmatter fmCounterexample = [] := stripFrontmatter_fmDoc 1012
  simp only [cleanCore, Option.getD_some, h1]
  rfl

theorem blockMatcher_rep_a (ls : Bool) (k : Nat) : blockMatcher ls (List.replicate k 'a') = none := by
  cases k with
  | zero => rfl
  | succ n =>
    simp only [List.replicate_succ, blockMatcher]
    rw [if_neg (by simp)]

theorem voidMatcher_rep_a (ls : Bool) (k : Nat) : voidMatcher ls (List.replicate k 'a') = none := by
  cases k with
  | zero => rfl
  | succ n =>
    simp only [List.replicate_succ, voidMatcher]
    rw [if_neg (by simp)]

theorem tagMatcher_rep_a (ls : Bool) (k : Nat) : tagMatcher ls (List.replicate k 'a') = none := by
  cases k with
  | zero => rfl
  | succ n =>
    simp only [List.replicate_succ, tagMatcher]
    rw [if_neg (by simp)]

theorem imageMatcher_rep_a (ls : Bool) (k : Nat) : imageMatcher ls (List.replicate k 'a') = none := by
  cases k with
  | zero => rfl
  | succ n =>
    simp only [List.replicate_succ, imageMatcher]
    rw [if_neg (by simp)]

theorem hexEntMatcher_rep_a (ls : Bool) (k : Nat) : hexEntMatcher ls (List.replicate k 'a') = none := by
  cases k with
  | zero => rfl
  | succ n =>
    simp only [List.replicate_succ, hexEntMatcher]
    rw [if_neg (by simp)]

theorem decEntMatcher_rep_a (ls : Bool) (k : Nat) : decEntMatcher ls (List.replicate k 'a') = none := by
  cases k with
  | zero => rfl
  | succ n =>
    simp only [List.replicate_succ, decEntMatcher]
    rw [if_neg (by simp)]

theorem tableMatcher_rep_a (ls : Bool) (k : Nat) : tableMatcher ls (List.replicate k 'a') = none := by
  cases ls with
  | false => rfl
  | true =>
    cases k with
    | zero => rfl
    | succ n =>
      have hW : wsRunL ('a' :: List.replicate n 'a') = 0 := by
        rw [wsRunL, ← List.replicate_succ, takeWhile_rep_false (show jsWS 'a' = false from by decide)]
        rfl
      simp [tableMatcher, List.replicate_succ, hW]

theorem atxMatcher_rep_a (ls : Bool) (k : Nat) : atxMatcher ls (List.replicate k 'a') = none := by
  cases ls with
  | false => rfl
  | true =>
    cases k with
    | zero => rfl
    | succ n =>
      have hW : wsRunL ('a' :: List.replicate n 'a') = 0 := by
        rw [wsRunL, ← List.replicate_succ, takeWhile_rep_false (show jsWS 'a' = false from by decide)]
        rfl
      simp [atxMatcher, List.replicate_succ, hW]

theorem setextMatcher_rep_a (ls : Bool) (k : Nat) : setextMatcher ls (List.replicate k 'a') = none := by
  cases ls with
  | false => rfl
  | true =>
    have hW : wsRunL (List.replicate k 'a') = 0 := by
      rw [wsRunL, takeWhile_rep_false (show jsWS 'a' = false from by decide)]; rfl
    have hD : ((List.replicate k 'a').takeWhile dashEq).length = 0 := by
      rw [takeWhile_rep_false (show dashEq 'a' = false from by decide)]; rfl
    simp only [setextMatcher, hW, List.drop_zero, hD]
    rw [if_pos trivial, if_neg (by omega)]

theorem ws1Matcher_rep_a (ls : Bool) (k : Nat) : ws1Matcher ls (List.replicate k 'a') = none := by
  have hR : ((List.replicate k 'a').takeWhile (fun c => c = ' ' || c = '\t')).length = 0 := by
    rw [takeWhile_rep_false (by decide)]; rfl
  simp [ws1Matcher, hR]

theorem ws2Matcher_rep_a (ls : Bool) (k : Nat) : ws2Matcher ls (List.replicate k 'a') = none := by
  have hR : ((List.replicate k 'a').takeWhile (fun c => c = '\n')).length = 0 := by
    rw [takeWhile_rep_false (by decide)]; rfl
  simp [ws2Matcher, hR]

theorem litMatcher_head_rep_a (p : Char) (ps repl : List Char) (h : (p == 'a') = false)
    (ls : Bool) (k : Nat) : litMatcher (p :: ps) repl ls (List.replicate k 'a') = none := by
  cases k with
  | zero => rfl
  | succ n =>
    simp only [List.replicate_succ, litMatcher]
    rw [if_neg (by simp [List.isPrefixOf, h])]

theorem stripFrontmatter_rep_a (n : Nat) :
    stripFrontmatter (List.replicate n 'a') = List.replicate n 'a' := by
  cases n with
  | zero => rfl
  | succ n2 =>
    have hpre : ("---".data.isPrefixOf ('a' :: List.replicate n2 'a')) = false := by
      show (('-' :: "--".data).isPrefixOf _) = false
      simp [List.isPrefixOf]
    simp [stripFrontmatter, List.replicate_succ, hpre]

theorem trimList_rep_a (n : Nat) : trimList (List.replicate n 'a') = List.replicate n 'a' := by
  rw [trimList, dropWhile_rep_false (show jsWS 'a' = false from by decide), List.reverse_replicate,
    dropWhile_rep_false (show jsWS 'a' = false from by decide), List.reverse_replicate]

theorem cleanCore_rep_a (n : Nat) :
    cleanCore (some (List.replicate n 'a')) = List.replicate n 'a' := by
  simp only [cleanCore, Option.getD_some]
  rw [stripFrontmatter_rep_a, gReplace_id blockMatcher_rep_a, gReplace_id voidMatcher_rep_a,
    gReplace_id tagMatcher_rep_a, gReplace_id atxMatcher_rep_a, gReplace_id setextMatcher_rep_a,
    gReplace_id imageMatcher_rep_a, gReplace_id tableMatcher_rep_a,
    gReplace_id (litMatcher_head_rep_a '&' "nbsp;".data " ".data (by decide)),
    gReplace_id (litMatcher_head_rep_a '&' "amp;".data "&".data (by decide)),
    gReplace_id (litMatcher_head_rep_a '&' "lt;".data "<".data (by decide)),
    gReplace_id (litMatcher_head_rep_a '&' "gt;".data ">".data (by decide)),
    gReplace_id hexEntMatcher_rep_a, gReplace_id decEntMatcher_rep_a,
    gReplace_id ws1Matcher_rep_a, gReplace_id ws2Matcher_rep_a, trimList_rep_a]

/-- C4 counterexample: `fmCounterexample` has 1022 ≥ 1021 characters, yet the
summarizer's output has 3 characters, not 1024 — the cleaning passes run
before truncation and can shrink the text below the cap. -/
theorem c4_truncation_counterexample :
    1021 ≤ fmCounterexample.length
    ∧ (cleanMarkdown (some fmCounterexample)).length ≠ 1024 := by
  constructor
  · have h4 : ("---\n".data).length = 4 := rfl
    have h5 : ("\n---\n".data).length = 5 := rfl
    show 1021 ≤ (fmDoc 1013).length
    rw [fmDoc, List.length_append, List.length_append, List.length_replicate, h4, h5]
    omega
  · rw [cleanMarkdown, cleanCore_fm]
    decide

/-- C4 (as amended): whenever the cleaned text entering the final truncation
step has at least 1021 characters the output has exactly 1024 characters, and
for every input the output ends with the literal three-dot suffix. -/
theorem c4_truncation :
    (∀ md : Option (List Char), 1021 ≤ (cleanCore md).length → (cleanMarkdown md).length = 1024)
    ∧ (∀ md : Option (List Char), "...".data <:+ cleanMarkdown md) := by
  constructor
  · intro md h
    show ((cleanCore md).take 1021 ++ "...".data).length = 1024
    rw [List.length_append, List.length_take]
    have h3 : ("...".data).length = 3 := rfl
    rw [h3, Nat.min_eq_left h]
  · intro md
    exact List.suffix_append _ _

/-- Closed instance of `c4_truncation`: a 1021-character plain text survives
cleaning unchanged, so the output has exactly 1024 characters. -/
theorem c4_truncation_instance :
    (cleanMarkdown (some (List.replicate 1021 'a'))).length = 1024 :=
  c4_truncation.1 (some (List.replicate 1021 'a'))
    (by rw [cleanCore_rep_a, List.length_replicate])

/-! ## C5: heading and underline removal -/

theorem wsRunL_eq_length {v : List Char} (h : v.takeWhile jsWS = v) : wsRunL v = v.length := by
  unfold wsRunL
  rw [h]

theorem atxMatcher_full {s : List Char} (hn : noLT s = true) (ha : atxLine s = true) :
    atxMatcher true s = some (s.length - 1, []) := by
  simp only [atxLine, Bool.and_eq_true, decide_eq_true_eq] at ha
  obtain ⟨⟨⟨h1, h2⟩, h3⟩, h4⟩ := ha
  obtain ⟨c, l2, he, hp⟩ := head_of_takeWhile_pos h2
  have hhead : (s.drop (wsRunL s)).head? = some '#' := by
    rw [he, List.head?_cons, of_decide_eq_true hp]
  have hn2 : ∀ x ∈ s, (!isLineTermB x) = true := by
    simpa [noLT, List.all_eq_true] using hn
  have htw :
      (((s.drop (wsRunL s)).drop
          ((List.takeWhile (fun c => c = '#') (s.drop (wsRunL s))).length)).drop
        (wsRunL ((s.drop (wsRunL s)).drop
          ((List.takeWhile (fun c => c = '#') (s.drop (wsRunL s))).length)))).takeWhile
        (fun c => !isLineTermB c) =
      ((s.drop (wsRunL s)).drop
          ((List.takeWhile (fun c => c = '#') (s.drop (wsRunL s))).length)).drop
        (wsRunL ((s.drop (wsRunL s)).drop
          ((List.takeWhile (fun c => c = '#') (s.drop (wsRunL s))).length))) := by
    refine List.takeWhile_eq_self_iff.mpr ?_
    intro x hx
    exact hn2 x (List.drop_subset _ _ (List.drop_subset _ _ (List.drop_subset _ _ hx)))
  simp only [atxMatcher]
  rw [if_pos trivial, if_pos h1, if_pos hhead, if_pos h3, if_pos h4]
  have l1 : wsRunL s ≤ s.length := length_takeWhile_le _ _
  have l2a : (List.takeWhile (fun c => c = '#') (s.drop (wsRunL s))).length
      ≤ (s.drop (wsRunL s)).length := length_takeWhile_le _ _
  have l3 : wsRunL ((s.drop (wsRunL s)).drop
        ((List.takeWhile (fun c => c = '#') (s.drop (wsRunL s))).length))
      ≤ ((s.drop (wsRunL s)).drop
        ((List.takeWhile (fun c => c = '#') (s.drop (wsRunL s))).length)).length :=
    length_takeWhile_le _ _
  have d1 : (s.drop (wsRunL s)).length = s.length - wsRunL s := List.length_drop _ _
  have d2 : ((s.drop (wsRunL s)).drop
        ((List.takeWhile (fun c => c = '#') (s.drop (wsRunL s))).length)).length
      = (s.drop (wsRunL s)).length
        - (List.takeWhile (fun c => c = '#') (s.drop (wsRunL s))).length :=
    List.length_drop _ _
  have d3 : (((s.drop (wsRunL s)).drop
        ((List.takeWhile (fun c => c = '#') (s.drop (wsRunL s))).length)).drop
        (wsRunL ((s.drop (wsRunL s)).drop
          ((List.takeWhile (fun c => c = '#') (s.drop (wsRunL s))).length)))).length
      = ((s.drop (wsRunL s)).drop
          ((List.takeWhile (fun c => c = '#') (s.drop (wsRunL s))).length)).length
        - wsRunL ((s.drop (wsRunL s)).drop
          ((List.takeWhile (fun c => c = '#') (s.drop (wsRunL s))).length)) :=
    List.length_drop _ _
  rw [htw]
  congr 2
  omega

theorem setextMatcher_full {s : List Char} (hs : setextLine s = true) :
    setextMatcher true s = some (s.length - 1, []) := by
  simp only [setextLine, Bool.and_eq_true, decide_eq_true_eq] at hs
  obtain ⟨h1, h2⟩ := hs
  have hall : ∀ x ∈ ((s.drop (wsRunL s)).drop
      ((List.takeWhile dashEq (s.drop (wsRunL s))).length)), jsWS x = true := by
    simpa [List.all_eq_true] using h2
  have htw : ((s.drop (wsRunL s)).drop
        ((List.takeWhile dashEq (s.drop (wsRunL s))).length)).takeWhile jsWS
      = (s.drop (wsRunL s)).drop
        ((List.takeWhile dashEq (s.drop (wsRunL s))).length) :=
    List.takeWhile_eq_self_iff.mpr hall
  have hT : wsRunL ((s.drop (wsRunL s)).drop
        ((List.takeWhile dashEq (s.drop (wsRunL s))).length))
      = ((s.drop (wsRunL s)).drop
        ((List.takeWhile dashEq (s.drop (wsRunL s))).length)).length :=
    wsRunL_eq_length htw
  simp only [setextMatcher]
  rw [if_pos trivial, if_pos h1]
  simp only [dollarTrail]
  rw [hT, if_pos (List.drop_length _)]
  have l1 : wsRunL s ≤ s.length := length_takeWhile_le _ _
  have l2a : (List.takeWhile dashEq (s.drop (wsRunL s))).length
      ≤ (s.drop (wsRunL s)).length := length_takeWhile_le _ _
  have d1 : (s.drop (wsRunL s)).length = s.length - wsRunL s := List.length_drop _ _
  have d2 : ((s.drop (wsRunL s)).drop
        ((List.takeWhile dashEq (s.drop (wsRunL s))).length)).length
      = (s.drop (wsRunL s)).length
        - (List.takeWhile dashEq (s.drop (wsRunL s))).length :=
    List.length_drop _ _
  have key : wsRunL s + (List.takeWhile dashEq (List.drop (wsRunL s) s)).length
      + (List.drop (List.takeWhile dashEq (List.drop (wsRunL s) s)).length
          (List.drop (wsRunL s) s)).length = s.length := by omega
  show some (wsRunL s + (List.takeWhile dashEq (List.drop (wsRunL s) s)).length
      + (List.drop (List.takeWhile dashEq (List.drop (wsRunL s) s)).length
          (List.drop (wsRunL s) s)).length - 1, ([] : List Char)) = some (s.length - 1, [])
  rw [key]

/-- C5 counterexample: the line `#x` begins with one `#` character, yet the
summarizer keeps it verbatim — the heading regex requires at least one
whitespace character after the hashes. -/
theorem c5_heading_counterexample :
    cleanMarkdown (some "#x".data) = "#x...".data := by decide

/-- C5 (as amended): a single line with at most 3 leading whitespace
characters, one to six `#`, then at least one whitespace character is removed
entirely by the heading pass; a single line consisting solely of 3 or more
`-`/`=` characters with surrounding whitespace is removed entirely by the
underline pass; and inside a document the passes excise exactly those lines,
as evaluated on a sample document. -/
theorem c5_heading_removal :
    (∀ s : List Char, noLT s = true → atxLine s = true → gReplace atxMatcher s = [])
    ∧ (∀ s : List Char, setextLine s = true → gReplace setextMatcher s = [])
    ∧ cleanMarkdown (some "A\n# Title\nB\n---\nC".data) = "A\n\nB\n\nC...".data := by
  refine ⟨?_, ?_, by decide⟩
  · intro s hn ha
    have hne : s ≠ [] := by
      intro h
      rw [h] at ha
      exact absurd ha (by decide)
    exact gReplace_full (atxMatcher_full hn ha) hne
  · intro s hs
    have hne : s ≠ [] := by
      intro h
      rw [h] at hs
      exact absurd hs (by decide)
    exact gReplace_full (setextMatcher_full hs) hne

/-- Closed instance of `c5_heading_removal`. -/
theorem c5_heading_removal_instance :
    gReplace atxMatcher "## Hello world".data = []
    ∧ gReplace setextMatcher " === ".data = [] :=
  ⟨c5_heading_removal.1 "## Hello world".data (by decide) (by decide),
   c5_heading_removal.2.1 " === ".data (by decide)⟩

/-! ## C6–C10: the `sendToDiscord` pipeline -/

theorem cleanMarkdown_none : cleanMarkdown none = "...".data := rfl

/-- C6: with the subject accepted, a non-200 documentation response still
yields a notification, whose description is exactly the three-dot suffix. -/
theorem c6_missing_readme :
    ∀ (url : String) (p : HFWebhookPayload) (info : ModelInfo) (body : List Char) (now : String)
      (st : Nat), isRelevant p.repo.name.data = true → st ≠ 200 →
      ((sendToDiscord url p info st body now).2).map (fun dp => dp.embeds.map Embed.description)
        = some [("...".data : List Char)] := by
  intro url p info body now st hrel hst
  have hden : denylisted p.repo.name.data = false := by
    cases h : denylisted p.repo.name.data
    · rfl
    · rw [isRelevant, h] at hrel
      exact absurd hrel (by decide)
  simp [sendToDiscord, hden, hst, cleanMarkdown_none]

/-- Closed instance of `c6_missing_readme`. -/
theorem c6_missing_readme_instance :
    ((sendToDiscord "https://discord.example/webhook" samplePayload sampleInfo 404
        "ignored".data "2026-10-11T00:00:00.000Z").2).map
      (fun dp => dp.embeds.map Embed.description) = some [("...".data : List Char)] :=
  c6_missing_readme "https://discord.example/webhook" samplePayload sampleInfo
    "ignored".data "2026-10-11T00:00:00.000Z" 404 (by decide) (by decide)

/-- C7: the composed field list is `Type`, then `Parameters` exactly when the
metadata exposes `safetensors.total` (abbreviated), then `License` exactly
when it exposes `cardData.license`; absent paths omit the field, without
error. -/
theorem c7_field_order :
    ∀ (url : String) (p : HFWebhookPayload) (info : ModelInfo) (st : Nat) (body : List Char)
      (now : String), isRelevant p.repo.name.data = true →
      ((sendToDiscord url p info st body now).2).map (fun dp => dp.embeds.map Embed.fields)
        = some [[{ name := "Type", value := capFirst p.repo.type, inline := true }]
            ++ (match info.safetensors with
                | some stn =>
                  match stn.total with
                  | some t => [{ name := "Parameters", value := abbreviateNumber t, inline := true }]
                  | none => []
                | none => [])
            ++ (match info.cardData with
                | some cd =>
                  match cd.license with
                  | some l => [{ name := "License", value := l, inline := true }]
                  | none => []
                | none => [])] := by
  intro url p info st body now hrel
  have hden : denylisted p.repo.name.data = false := by
    cases h : denylisted p.repo.name.data
    · rfl
    · rw [isRelevant, h] at hrel
      exact absurd hrel (by decide)
  obtain ⟨sf, cd⟩ := info
  rcases sf with _ | ⟨_ | t⟩ <;> rcases cd with _ | ⟨_ | l⟩ <;>
    simp [sendToDiscord, hden]

/-- Closed instance of `c7_field_order`. -/
theorem c7_field_order_instance :
    ((sendToDiscord "https://discord.example/webhook" samplePayload sampleInfo 200
        "hello".data "2026-10-11T00:00:00.000Z").2).map (fun dp => dp.embeds.map Embed.fields)
      = some [[{ name := "Type", value := capFirst samplePayload.repo.type, inline := true }]
          ++ (match sampleInfo.safetensors with
              | some stn =>
                match stn.total with
                | some t => [{ name := "Parameters", value := abbreviateNumber t, inline := true }]
                | none => []
              | none => [])
          ++ (match sampleInfo.cardData with
              | some cd =>
                match cd.license with
                | some l => [{ name := "License", value := l, inline := true }]
                | none => []
              | none => [])] :=
  c7_field_order "https://discord.example/webhook" samplePayload sampleInfo 200
    "hello".data "2026-10-11T00:00:00.000Z" (by decide)

/-- C8 counterexample: the subject type `toString` lies outside the 3-entry
table, yet its color is not the gray default — bracket access on the object
literal returns the inherited `Object.prototype.toString` function, which is
truthy and survives the `|| 0x808080` fallback. -/
theorem c8_accent_color_counterexample :
    colorTable.lookup "toString" = none
    ∧ colorFor "toString" ≠ ColorValue.num 0x808080
    ∧ colorFor "toString" = ColorValue.protoMember "toString" := by
  refine ⟨rfl, ?_, rfl⟩
  decide

/-- C8 (as amended): the accent color is a pure function of the subject type:
the fixed 3-entry table colors `model`/`dataset`/`space`; a type naming an
inherited `Object.prototype` member yields that inherited truthy value rather
than gray; every other type outside the table gets the neutral gray default;
and the composed notification always carries exactly that color. -/
theorem c8_accent_color :
    (colorFor "model" = ColorValue.num 0xFF9D00
      ∧ colorFor "dataset" = ColorValue.num 0x00D1FF
      ∧ colorFor "space" = ColorValue.num 0xFF006E)
    ∧ (∀ t : String, t ≠ "model" → t ≠ "dataset" → t ≠ "space" →
        t ∉ OBJECT_PROTOTYPE_KEYS → colorFor t = ColorValue.num 0x808080)
    ∧ (∀ t : String, t ∈ OBJECT_PROTOTYPE_KEYS → colorFor t = ColorValue.protoMember t)
    ∧ (∀ (url : String) (p : HFWebhookPayload) (info : ModelInfo) (st : Nat) (body : List Char)
        (now : String), isRelevant p.repo.name.data = true →
        ((sendToDiscord url p info st body now).2).map (fun dp => dp.embeds.map Embed.color)
          = some [colorFor p.repo.type]) := by
  refine ⟨⟨rfl, rfl, rfl⟩, ?_, ?_, ?_⟩
  · intro t h1 h2 h3 hp
    have b1 : (t == "model") = false := beq_eq_false_iff_ne.mpr h1
    have b2 : (t == "dataset") = false := beq_eq_false_iff_ne.mpr h2
    have b3 : (t == "space") = false := beq_eq_false_iff_ne.mpr h3
    simp [colorFor, colorTable, List.lookup, b1, b2, b3, hp]
  · intro t ht
    fin_cases ht <;> rfl
  · intro url p info st body now hrel
    have hden : denylisted p.repo.name.data = false := by
      cases h : denylisted p.repo.name.data
      · rfl
      · rw [isRelevant, h] at hrel
        exact absurd hrel (by decide)
    simp [sendToDiscord, hden]

/-- Closed instance of `c8_accent_color`: a type outside both the table and
the prototype, a prototype member, and the pipeline color of a sample
notification. -/
theorem c8_accent_color_instance :
    colorFor "paper" = ColorValue.num 0x808080
    ∧ colorFor "valueOf" = ColorValue.protoMember "valueOf"
    ∧ ((sendToDiscord "https://discord.example/webhook" samplePayload sampleInfo 200
        "hello".data "2026-10-11T00:00:00.000Z").2).map (fun dp => dp.embeds.map Embed.color)
      = some [colorFor samplePayload.repo.type] :=
  ⟨c8_accent_color.2.1 "paper" (by decide) (by decide) (by decide) (by decide),
   c8_accent_color.2.2.1 "valueOf" (by decide),
   c8_accent_color.2.2.2 "https://discord.example/webhook" samplePayload sampleInfo 200
     "hello".data "2026-10-11T00:00:00.000Z" (by decide)⟩

/-- C9: a subject rejected by the relevance filter produces no network effect
at all and no notification document — the filter decision precedes both
fetches; an accepted subject issues exactly the metadata fetch, then the
readme fetch, then the webhook post. -/
theorem c9_filter_before_fetch :
    (∀ (url : String) (p : HFWebhookPayload) (info : ModelInfo) (st : Nat) (body : List Char)
        (now : String), isRelevant p.repo.name.data = false →
        sendToDiscord url p info st body now = ([], none))
    ∧ (∀ (url : String) (p : HFWebhookPayload) (info : ModelInfo) (st : Nat) (body : List Char)
        (now : String), isRelevant p.repo.name.data = true →
        ∃ dp : DiscordPayload,
          (sendToDiscord url p info st body now).1
            = [Effect.fetchApi p.repo.url.api, Effect.fetchReadme (readmeUrl p.repo.name),
               Effect.postWebhook url dp]) := by
  constructor
  · intro url p info st body now hrel
    have hden : denylisted p.repo.name.data = true := by
      cases h : denylisted p.repo.name.data
      · rw [isRelevant, h] at hrel
        exact absurd hrel (by decide)
      · rfl
    simp [sendToDiscord, hden]
  · intro url p info st body now hrel
    have hden : denylisted p.repo.name.data = false := by
      cases h : denylisted p.repo.name.data
      · rfl
      · rw [isRelevant, h] at hrel
        exact absurd hrel (by decide)
    refine ⟨((sendToDiscord url p info st body now).2).getD ⟨[]⟩, ?_⟩
    simp [sendToDiscord, hden]

/-- Closed instance of `c9_filter_before_fetch`: the identifier
`acme/model-gguf` triggers no fetch and no notification. -/
theorem c9_filter_before_fetch_instance :
    sendToDiscord "https://discord.example/webhook" ggufPayload sampleInfo 200
      "hello".data "2026-10-11T00:00:00.000Z" = ([], none)
    ∧ ∃ dp : DiscordPayload,
        (sendToDiscord "https://discord.example/webhook" samplePayload sampleInfo 200
          "hello".data "2026-10-11T00:00:00.000Z").1
          = [Effect.fetchApi samplePayload.repo.url.api,
             Effect.fetchReadme (readmeUrl samplePayload.repo.name),
             Effect.postWebhook "https://discord.example/webhook" dp] :=
  ⟨c9_filter_before_fetch.1 "https://discord.example/webhook" ggufPayload sampleInfo 200
     "hello".data "2026-10-11T00:00:00.000Z" (by decide),
   c9_filter_before_fetch.2 "https://discord.example/webhook" samplePayload sampleInfo 200
     "hello".data "2026-10-11T00:00:00.000Z" (by decide)⟩

/-- C10: the pipeline never reads the repository visibility flag: two events
identical except for `private` produce identical effects and an identical
notification document. -/
theorem c10_visibility_independence :
    ∀ (url : String) (p : HFWebhookPayload) (info : ModelInfo) (st : Nat) (body : List Char)
      (now : String) (b : Bool),
      sendToDiscord url (setPriv p b) info st body now = sendToDiscord url p info st body now := by
  intro url p info st body now b
  rfl
